import Mathlib

/-!
Verification of the Uniden UBC125XLT serial-command scripts.

Python strings are modelled as `List Char` and Python `bytes` as `List Nat`
(each element a byte value `< 256`).  All definitions are translated from the
repository sources (`uniden.py`, `uniden_device.py`, `uniden_debug.py`,
`uniden_channel_test.py`, `uniden_cin_read.py`); the transport (pyusb) is an
external collaborator and is modelled as a trace of read outcomes that the
code consumes.
-/

namespace Uniden

/-- Convenience: the character list of a string literal. -/
def chars (s : String) : List Char := s.toList

/-! ## Python string primitives -/

/-- Python `str.isspace` restricted to the character range that can occur in
this protocol (ASCII plus the U+FFFD replacement character): space, TAB, LF,
VT, FF, CR and the FS/GS/RS/US separators 0x1C-0x1F. -/
def pyIsSpace (c : Char) : Bool :=
  c = ' ' || c = '\t' || c = '\n' || c = '\x0b' || c = '\x0c' || c = '\r' ||
  c = '\x1c' || c = '\x1d' || c = '\x1e' || c = '\x1f'

/-- Python `str.lstrip()` (default whitespace argument). -/
def pyStripL (s : List Char) : List Char := s.dropWhile pyIsSpace

/-- Python `str.strip()` (default whitespace argument): drop whitespace from
both ends. -/
def pyStrip (s : List Char) : List Char :=
  ((s.dropWhile pyIsSpace).reverse.dropWhile pyIsSpace).reverse

/-- Python `s.split(',')`: split on every comma, preserving empty fields;
`"".split(',') = [""]`, so the result is always non-empty. -/
def splitComma : List Char → List (List Char)
  | [] => [[]]
  | c :: rest =>
    if c = ',' then [] :: splitComma rest
    else
      match splitComma rest with
      | f :: fs => (c :: f) :: fs
      | [] => [[c]]

/-- Python `str.isdigit` on the ASCII/U+FFFD domain of this protocol: the
string is non-empty and every character is a decimal digit. -/
def pyIsDigitStr (s : List Char) : Bool := !s.isEmpty && s.all Char.isDigit

/-- Python `int(s)` for a string of decimal digits (leading zeros allowed). -/
def pyIntOfDigits (s : List Char) : Nat :=
  s.foldl (fun a c => a * 10 + (c.toNat - 48)) 0

/-! ## CommandFramer: encode / decode

The scripts use three different byte-decoding policies:
`bytes(x).decode('ascii')` (strict, `uniden.py` / `uniden_cin_read.py`),
`bytes(x).decode('ascii', errors='replace')` (`uniden_channel_test.py`,
`uniden_debug.py`) and `bytes(x).decode('ascii', errors='ignore')`
(`uniden_device.py`). -/

/-- The U+FFFD replacement character produced by `errors='replace'`. -/
def replChar : Char := Char.ofNat 0xFFFD

/-- `bytes.decode('ascii', errors='replace')`: bytes below 0x80 map to the
corresponding ASCII character, all others to U+FFFD.  Total. -/
def decodeReplace (bs : List Nat) : List Char :=
  bs.map (fun b => if b < 128 then Char.ofNat b else replChar)

/-- `bytes.decode('ascii')` (strict): fails (`UnicodeDecodeError`, modelled as
`none`) as soon as any byte is `>= 0x80`. -/
def decodeStrict (bs : List Nat) : Option (List Char) :=
  if bs.all (fun b => b < 128) then some (bs.map Char.ofNat) else none

/-- `bytes.decode('ascii', errors='ignore')`: bytes `>= 0x80` are silently
dropped, not replaced. -/
def decodeIgnore (bs : List Nat) : List Char :=
  (bs.filter (fun b => b < 128)).map Char.ofNat

/-- Python `str.encode('ascii')`: fails (`UnicodeEncodeError`, modelled as
`none`) if any character is non-ASCII. -/
def encodeAscii (s : List Char) : Option (List Nat) :=
  if s.all (fun c => c.toNat < 128) then some (s.map Char.toNat) else none

/-- The outbound frame built by `send_command` in `uniden.py`,
`uniden_channel_test.py`, `uniden_debug.py` and `uniden_cin_read.py`:
`cmd.strip() + '\r'`. -/
def frameCommand (cmd : List Char) : List Char := pyStrip cmd ++ ['\r']

/-! ## ReplyParser: `parse_glg_response` (`uniden_channel_test.py` 83-115) -/

/-- The expected reply tag `"GLG"`. -/
def glgTag : List Char := ['G', 'L', 'G']

/-- The parsed GLG record.  Python returns a `dict`; absent per-field values
(`None`) are `Option.none`, and the empty dict `{}` returned on tag mismatch
or on a caught exception is modelled as `none` at the `Option GLGParsed`
level. -/
structure GLGParsed where
  command : List Char
  raw_frequency : List Char
  frequency_mhz : Option ℚ
  mode : Option (List Char)
  channel : List Char
  deriving DecidableEq, Repr

/-- `parse_glg_response` from `uniden_channel_test.py`:
split on `,`; if `fields[0] != "GLG"` return `{}`; otherwise read
`fields[1]` (an `IndexError` here is caught by the `except` clause and
yields `{}`), convert it to a frequency when it is all digits
(`int(raw)/10000.0`, modelled exactly in `ℚ`), take `fields[2]` as the mode
when present, and take the last field whose `strip()` is non-empty as the
channel (default `""`). -/
def parse_glg_response (resp : List Char) : Option GLGParsed :=
  let fields := splitComma resp
  match fields with
  | [] => none
  | f0 :: tail =>
    if f0 ≠ glgTag then none
    else
      match tail with
      | [] => none
      | f1 :: rest2 =>
        let frequency : Option ℚ :=
          if pyIsDigitStr f1 then some ((pyIntOfDigits f1 : ℚ) / 10000) else none
        let mode : Option (List Char) := rest2.head?
        let channel : List Char :=
          ((f0 :: f1 :: rest2).reverse.find? (fun f => !(pyStrip f).isEmpty)).getD []
        some ⟨f0, f1, frequency, mode, channel⟩

/-- The claim's wording for C8, written from the spec, to be compared with the
source behaviour: "the last non-empty field of the comma-split result". -/
def lastNonemptyFieldSpec (fs : List (List Char)) : List Char :=
  (fs.reverse.find? (fun f => !f.isEmpty)).getD []

/-! ## Transport model

The pyusb device is an external collaborator.  A bulk-IN endpoint is modelled
as a trace: the list of outcomes that successive `device.read` calls produce.
Each outcome is either a byte payload or a `usb.core.USBError` carrying
whether it is a timeout (errno 110 / message containing "timeout").
A function consuming the trace returns `none` when the trace is exhausted
while the code would issue another read (the run is not determined by the
given trace). -/

/-- One `device.read` outcome. -/
inductive Outcome where
  | bytes (bs : List Nat)
  | usbErr (isTimeout : Bool)
  deriving DecidableEq, Repr

/-- The arguments of one issued `device.read` call. -/
structure ReadReq where
  maxLen : Nat
  timeoutMs : Nat
  deriving DecidableEq, Repr

/-- A Python exception escaping one of the modelled operations. -/
inductive PyFail where
  | usb (isTimeout : Bool)
  | encodeErr
  | decodeErr
  deriving DecidableEq, Repr

/-! ### `send_command` of `uniden_channel_test.py` (lines 58-75) -/

/-- Result of one `send_command` exchange: the returned (or raised) value,
the `device.read` calls issued, and the unconsumed remainder of the trace. -/
structure ExchangeOut where
  result : Except PyFail (List Char)
  reads : List ReadReq
  rest : List Outcome
  deriving Repr

/-- `send_command` from `uniden_channel_test.py`: frame and write the command
(`cmd.strip() + '\r'`, ASCII-encoded), read up to 256 bytes with the 5000 ms
timeout, decode with `errors='replace'` and strip; if the text ends in `,`,
issue one more 256-byte read with a 1000 ms timeout inside a
`try/except usb.core.USBError` that appends the stripped extra text on
success and keeps the accumulated text on any USBError.  A USBError on the
primary read is not caught and escapes. -/
def send_command_ct (cmd : List Char) (trace : List Outcome) : Option ExchangeOut :=
  match encodeAscii (frameCommand cmd) with
  | none => some ⟨.error .encodeErr, [], trace⟩
  | some _ =>
    match trace with
    | [] => none
    | .usbErr t :: rest => some ⟨.error (.usb t), [⟨256, 5000⟩], rest⟩
    | .bytes bs :: rest =>
      let text := pyStrip (decodeReplace bs)
      if text.getLast? = some ',' then
        match rest with
        | [] => none
        | .bytes bs2 :: rest2 =>
          some ⟨.ok (text ++ pyStrip (decodeReplace bs2)), [⟨256, 5000⟩, ⟨256, 1000⟩], rest2⟩
        | .usbErr _ :: rest2 =>
          some ⟨.ok text, [⟨256, 5000⟩, ⟨256, 1000⟩], rest2⟩
      else some ⟨.ok text, [⟨256, 5000⟩], rest⟩

/-! ### `clear_buffer` (`uniden_channel_test.py` 49-56, `uniden_debug.py` 45-55) -/

/-- Result of a terminated drain: the payloads read and discarded, whether
the terminating `USBError` was a timeout, the reads issued, and the trace
remainder. -/
structure DrainOut where
  discarded : List (List Nat)
  termTimeout : Bool
  reads : List ReadReq
  rest : List Outcome
  deriving DecidableEq, Repr

/-- `clear_buffer` from `uniden_channel_test.py`: `while True` read 256 bytes
with a 500 ms timeout, logging and discarding the data; the whole loop is in
`try/except usb.core.USBError`, so the first USBError of any kind ends the
loop and the method returns normally (an `Except.error` would model an
escaping exception; this code never produces one). -/
def clear_buffer_ct : List Outcome → Option (Except Bool DrainOut)
  | [] => none
  | .bytes bs :: rest =>
    (clear_buffer_ct rest).map fun r =>
      r.map fun d => ⟨bs :: d.discarded, d.termTimeout, ⟨256, 500⟩ :: d.reads, d.rest⟩
  | .usbErr t :: rest => some (.ok ⟨[], t, [⟨256, 500⟩], rest⟩)

/-- `clear_buffer` from `uniden_debug.py`: same loop with 128-byte reads; its
`except` clause distinguishes a timeout (errno 110 or "timeout" in the
message, logged at info level) from any other USBError (logged at error
level) but returns normally in both branches. -/
def clear_buffer_dbg : List Outcome → Option (Except Bool DrainOut)
  | [] => none
  | .bytes bs :: rest =>
    (clear_buffer_dbg rest).map fun r =>
      r.map fun d => ⟨bs :: d.discarded, d.termTimeout, ⟨128, 500⟩ :: d.reads, d.rest⟩
  | .usbErr t :: rest =>
    if t then some (.ok ⟨[], t, [⟨128, 500⟩], rest⟩)
    else some (.ok ⟨[], t, [⟨128, 500⟩], rest⟩)

/-! ### The session lifecycle of `uniden.py` (lines 38-48, 50-66, 89-95)

The `UnidenUBC125XLT` object of `uniden.py` stores only the `device` handle;
no method reads or writes any lifecycle state.  `initialize` issues the
configuration/claim calls, `send_command` unconditionally writes the frame
and reads 64 bytes (strict ASCII decode, then strip), and `close` issues
`release_interface` and `dispose_resources`.  A run is a straight-line script
of such calls against one trace; an uncaught exception aborts it. -/

/-- A call delegated to the external USB transport. -/
inductive TranspCall where
  | claimInterface
  | releaseInterface
  | dispose
  | writeBytes (bs : List Nat)
  | readBytes (req : ReadReq)
  deriving DecidableEq, Repr

/-- One session method invocation. -/
inductive SessionOp where
  | initOp
  | sendOp (cmd : List Char)
  | closeOp
  deriving DecidableEq, Repr

/-- Execute one session method of `uniden.py` against the trace, returning
its result (`some text` for `send_command`, `none` for the unit-returning
methods), the transport calls it issued, and the trace remainder.
`initialize` is the `set_configuration`/`claim_interface` sequence (the
kernel-driver detach depends on external state and is part of the claim
call); `send_command` is write + read(64, 5000 ms) + strict decode + strip;
`close` is release + dispose.  None of the three consults any session
state. -/
def runOp : SessionOp → List Outcome →
    Option (Except PyFail (Option (List Char)) × List TranspCall × List Outcome)
  | .initOp, trace => some (.ok none, [.claimInterface], trace)
  | .closeOp, trace => some (.ok none, [.releaseInterface, .dispose], trace)
  | .sendOp cmd, trace =>
    match encodeAscii (frameCommand cmd) with
    | none => some (.error .encodeErr, [], trace)
    | some bs =>
      match trace with
      | [] => none
      | .usbErr t :: rest =>
        some (.error (.usb t), [.writeBytes bs, .readBytes ⟨64, 5000⟩], rest)
      | .bytes rb :: rest =>
        match decodeStrict rb with
        | none => some (.error .decodeErr, [.writeBytes bs, .readBytes ⟨64, 5000⟩], rest)
        | some cs =>
          some (.ok (some (pyStrip cs)), [.writeBytes bs, .readBytes ⟨64, 5000⟩], rest)

/-- Run a straight-line script of session method calls; the first uncaught
exception aborts the remainder (as in the Python scripts). -/
def runOps : List SessionOp → List Outcome →
    Option (List (Except PyFail (Option (List Char))) × List TranspCall × List Outcome)
  | [], trace => some ([], [], trace)
  | op :: ops, trace =>
    match runOp op trace with
    | none => none
    | some (.error e, calls, rest) => some ([.error e], calls, rest)
    | some (.ok v, calls, rest) =>
      match runOps ops rest with
      | none => none
      | some (rs, cs, rem) => some (.ok v :: rs, calls ++ cs, rem)

/-! ## Helper lemmas -/

theorem head_dropWhile_not (p : α → Bool) :
    ∀ (l : List α) (a : α), (l.dropWhile p).head? = some a → p a = false := by
  intro l
  induction l with
  | nil => intro a h; simp [List.dropWhile] at h
  | cons c t ih =>
    intro a h
    rw [List.dropWhile_cons] at h
    by_cases hc : p c
    · rw [if_pos hc] at h; exact ih a h
    · rw [if_neg hc] at h
      simp at h
      subst h
      simpa using hc

theorem dropWhile_of_head_not (p : α → Bool) (l : List α)
    (h : ∀ a, l.head? = some a → p a = false) : l.dropWhile p = l := by
  cases l with
  | nil => rfl
  | cons c t =>
    rw [List.dropWhile_cons, if_neg]
    simp [h c rfl]

theorem head_append_left (l t : List α) (h : l ≠ []) : (l ++ t).head? = l.head? := by
  cases l with
  | nil => simp at h
  | cons c s => rfl

theorem find_none_all_false (p : α → Bool) (l : List α) (h : l.find? p = none) :
    ∀ a ∈ l, p a = false := by
  intro a ha
  simpa using List.find?_eq_none.mp h a ha

/-- Decomposition of a successful right-to-left search: `find?` over the
reversed list returns the last element satisfying `p`; everything after it
fails `p`. -/
theorem find_rev_decomp (p : α → Bool) :
    ∀ (l : List α) (a : α), l.reverse.find? p = some a →
      ∃ pre suf, l = pre ++ a :: suf ∧ p a = true ∧ ∀ b ∈ suf, p b = false := by
  intro l
  induction l with
  | nil => intro a h; simp at h
  | cons c t ih =>
    intro a h
    rw [List.reverse_cons, List.find?_append] at h
    cases hfind : t.reverse.find? p with
    | some a2 =>
      rw [hfind] at h
      simp [Option.or] at h
      subst h
      obtain ⟨pre, suf, hdec, hpa, hsuf⟩ := ih a2 hfind
      exact ⟨c :: pre, suf, by rw [hdec]; rfl, hpa, hsuf⟩
    | none =>
      rw [hfind] at h
      simp [Option.or] at h
      obtain ⟨hpc, rfl⟩ := h
      refine ⟨[], t, rfl, hpc, ?_⟩
      intro b hb
      exact find_none_all_false p t.reverse hfind b (List.mem_reverse.mpr hb)

theorem mem_pyStrip {s : List Char} {c : Char} (h : c ∈ pyStrip s) : c ∈ s := by
  unfold pyStrip at h
  rw [List.mem_reverse] at h
  have h2 : c ∈ (s.dropWhile pyIsSpace).reverse := (List.dropWhile_sublist _).subset h
  rw [List.mem_reverse] at h2
  exact (List.dropWhile_sublist _).subset h2

theorem pyStrip_head_not_space (s : List Char) (a : Char)
    (h : (pyStrip s).head? = some a) : pyIsSpace a = false := by
  unfold pyStrip at h
  set d := s.dropWhile pyIsSpace with hd
  have hsplit : d.reverse.takeWhile pyIsSpace ++ d.reverse.dropWhile pyIsSpace = d.reverse :=
    List.takeWhile_append_dropWhile pyIsSpace d.reverse
  have hd2 : d = (d.reverse.dropWhile pyIsSpace).reverse ++
      (d.reverse.takeWhile pyIsSpace).reverse := by
    calc d = d.reverse.reverse := (List.reverse_reverse d).symm
    _ = (d.reverse.takeWhile pyIsSpace ++ d.reverse.dropWhile pyIsSpace).reverse := by
          rw [hsplit]
    _ = _ := by rw [List.reverse_append]
  have hne : (d.reverse.dropWhile pyIsSpace).reverse ≠ [] := by
    intro hnil
    rw [hnil] at h
    simp at h
  have hhead : d.head? = some a := by
    rw [hd2, head_append_left _ _ hne]
    exact h
  exact head_dropWhile_not pyIsSpace s a hhead

theorem pyStrip_getLast_not_space (s : List Char) (a : Char)
    (h : (pyStrip s).getLast? = some a) : pyIsSpace a = false := by
  unfold pyStrip at h
  rw [List.getLast?_reverse] at h
  exact head_dropWhile_not pyIsSpace _ a h

theorem pyStrip_idem (s : List Char) : pyStrip (pyStrip s) = pyStrip s := by
  have h1 : (pyStrip s).dropWhile pyIsSpace = pyStrip s :=
    dropWhile_of_head_not _ _ (fun a ha => pyStrip_head_not_space s a ha)
  show (((pyStrip s).dropWhile pyIsSpace).reverse.dropWhile pyIsSpace).reverse = pyStrip s
  rw [h1]
  have h2 : (pyStrip s).reverse.dropWhile pyIsSpace = (pyStrip s).reverse :=
    dropWhile_of_head_not _ _ (fun a ha =>
      pyStrip_getLast_not_space s a (by rwa [List.head?_reverse] at ha))
  rw [h2, List.reverse_reverse]

theorem pyStrip_eq_nil_all_space {s : List Char} (h : pyStrip s = []) :
    ∀ c ∈ s, pyIsSpace c = true := by
  intro c hc
  unfold pyStrip at h
  rw [List.reverse_eq_nil_iff, List.dropWhile_eq_nil_iff] at h
  have hc2 : c ∈ s.takeWhile pyIsSpace ++ s.dropWhile pyIsSpace := by
    rw [List.takeWhile_append_dropWhile]
    exact hc
  rcases List.mem_append.mp hc2 with h1 | h2
  · exact List.mem_takeWhile_imp h1
  · exact h c (List.mem_reverse.mpr h2)

theorem space_not_digit {c : Char} (h : pyIsSpace c = true) : c.isDigit = false := by
  unfold pyIsSpace at h
  simp only [Bool.or_eq_true, decide_eq_true_eq] at h
  rcases h with ((((((((h|h)|h)|h)|h)|h)|h)|h)|h)|h <;> subst h <;> decide

theorem pyStrip_nil_not_digit {s : List Char} (h : pyStrip s = []) :
    pyIsDigitStr s = false := by
  cases s with
  | nil => rfl
  | cons c t =>
    have hsp := pyStrip_eq_nil_all_space h c (List.mem_cons_self c t)
    simp [pyIsDigitStr, space_not_digit hsp]

theorem encode_frame_ok {cmd : List Char} (h : ∀ c ∈ cmd, c.toNat < 128) :
    encodeAscii (frameCommand cmd) = some ((pyStrip cmd).map Char.toNat ++ [13]) := by
  unfold encodeAscii frameCommand
  rw [if_pos]
  · rw [List.map_append]
    rfl
  · rw [List.all_eq_true]
    intro c hc
    rcases List.mem_append.mp hc with h1 | h2
    · simpa using h c (mem_pyStrip h1)
    · simp at h2
      subst h2
      decide

theorem decodeStrict_map_toNat {s : List Char} (h : ∀ c ∈ s, c.toNat < 128) :
    decodeStrict (s.map Char.toNat) = some s := by
  unfold decodeStrict
  rw [if_pos]
  · rw [List.map_map]
    have heq : s.map (Char.ofNat ∘ Char.toNat) = s.map id :=
      List.map_congr_left (fun a _ => Char.ofNat_toNat a)
    simpa using heq
  · rw [List.all_eq_true]
    intro b hb
    rcases List.mem_map.mp hb with ⟨c, hc, rfl⟩
    simpa using h c hc

theorem char_toNat_ofNat {n : Nat} (h : n < 128) : (Char.ofNat n).toNat = n := by
  have hv : n.isValidChar := Or.inl (by omega)
  unfold Char.ofNat
  rw [dif_pos hv]
  rfl

theorem splitComma_ne_nil (s : List Char) : splitComma s ≠ [] := by
  cases s with
  | nil => simp [splitComma]
  | cons c rest =>
    unfold splitComma
    by_cases hc : c = ','
    · simp [hc]
    · rw [if_neg hc]
      cases h2 : splitComma rest with
      | nil => simp
      | cons f fs => simp

/-- Evaluation of `parse_glg_response` once the split is known to start with
the `GLG` tag and to have a second field. -/
theorem parse_glg_eq (resp f1 : List Char) (rest2 : List (List Char))
    (h : splitComma resp = glgTag :: f1 :: rest2) :
    parse_glg_response resp = some ⟨glgTag, f1,
      (if pyIsDigitStr f1 then some ((pyIntOfDigits f1 : ℚ) / 10000) else none),
      rest2.head?,
      ((glgTag :: f1 :: rest2).reverse.find? (fun f => !(pyStrip f).isEmpty)).getD []⟩ := by
  simp [parse_glg_response, h]

/-! ## Claim theorems -/

/-- C4: for every parsed reply whose tag matches, a digits-only frequency
field yields the integer value divided by 10000, and a non-digit frequency
field yields an absent numeric value rather than a failure; in particular
parsing `"GLG,01705000,FM,,0,,,,0,1,,422"` yields `frequency_mhz = 170.5`
and `mode = "FM"`. -/
theorem c4_frequency_divided_by_10000 :
    (∀ resp f1 rest, splitComma resp = glgTag :: f1 :: rest →
      ∃ g, parse_glg_response resp = some g ∧
        g.frequency_mhz =
          (if pyIsDigitStr f1 then some ((pyIntOfDigits f1 : ℚ) / 10000) else none)) ∧
    (∃ g, parse_glg_response (chars "GLG,01705000,FM,,0,,,,0,1,,422") = some g ∧
      g.frequency_mhz = some (170.5 : ℚ) ∧ g.mode = some (chars "FM")) := by
  constructor
  · intro resp f1 rest h
    exact ⟨_, parse_glg_eq resp f1 rest h, rfl⟩
  · refine ⟨_, parse_glg_eq (chars "GLG,01705000,FM,,0,,,,0,1,,422")
      (chars "01705000")
      [chars "FM", [], chars "0", [], [], [], chars "0", chars "1", [], chars "422"]
      (by decide), ?_, rfl⟩
    show (if pyIsDigitStr (chars "01705000")
        then some ((pyIntOfDigits (chars "01705000") : ℚ) / 10000) else none)
      = some (170.5 : ℚ)
    rw [if_pos (by decide)]
    have hval : pyIntOfDigits (chars "01705000") = 1705000 := rfl
    rw [hval]
    norm_num

/-- C4 witness: the general half of C4 applied at the example response. -/
theorem c4_frequency_divided_by_10000_witness :
    ∃ g, parse_glg_response (chars "GLG,99,AM") = some g ∧
      g.frequency_mhz =
        (if pyIsDigitStr (chars "99")
          then some ((pyIntOfDigits (chars "99") : ℚ) / 10000) else none) :=
  c4_frequency_divided_by_10000.1 (chars "GLG,99,AM") (chars "99") [chars "AM"] (by decide)

/-- C5: a response whose first comma-separated field is not the expected tag
parses to the empty result (Python `\x7b\x7d`, modelled as `none`), returned
normally rather than raised; in particular `"XYZ,1,2"` against tag `GLG`. -/
theorem c5_tag_mismatch_empty :
    (∀ resp f0 tail, splitComma resp = f0 :: tail → f0 ≠ glgTag →
      parse_glg_response resp = none) ∧
    parse_glg_response (chars "XYZ,1,2") = none := by
  constructor
  · intro resp f0 tail h hne
    simp [parse_glg_response, h, hne]
  · rfl

/-- C5 witness: the general half of C5 applied at `"XYZ,1,2"`. -/
theorem c5_tag_mismatch_empty_witness :
    parse_glg_response (chars "XYZ,1,2") = none :=
  c5_tag_mismatch_empty.1 (chars "XYZ,1,2") (chars "XYZ") [chars "1", chars "2"]
    (by decide) (by decide)

/-- C6: with a matching tag, missing fields are absent values, and the parse
never escalates: a reply with only two fields has `mode = none`, and a reply
consisting of the tag alone (where Python hits an `IndexError` on
`fields[1]`, caught by the `except` clause) yields the empty result rather
than an escaped exception. -/
theorem c6_missing_fields_absent :
    (∀ resp f1, splitComma resp = [glgTag, f1] →
      ∃ g, parse_glg_response resp = some g ∧ g.mode = none ∧ g.raw_frequency = f1) ∧
    (∀ resp, splitComma resp = [glgTag] → parse_glg_response resp = none) := by
  constructor
  · intro resp f1 h
    exact ⟨_, parse_glg_eq resp f1 [] h, rfl, rfl⟩
  · intro resp h
    simp [parse_glg_response, h]

/-- C6 witness: both halves of C6 at concrete replies. -/
theorem c6_missing_fields_absent_witness :
    (∃ g, parse_glg_response (chars "GLG,123") = some g ∧
      g.mode = none ∧ g.raw_frequency = chars "123") ∧
    parse_glg_response (chars "GLG") = none :=
  ⟨c6_missing_fields_absent.1 (chars "GLG,123") (chars "123") (by decide),
   c6_missing_fields_absent.2 (chars "GLG") (by decide)⟩

/-- C8 counterexample: on `"GLG,422, "` the last non-empty field of the
comma-split result is the whitespace-only field `" "`, but the code skips it
(it tests `f.strip()` truthiness, not non-emptiness) and yields channel
`"422"`; the claim's "last non-empty field" reading is therefore false. -/
theorem c8_counterexample_blank_field :
    (parse_glg_response (chars "GLG,422, ")).map GLGParsed.channel = some (chars "422") ∧
    lastNonemptyFieldSpec (splitComma (chars "GLG,422, ")) = chars " " ∧
    chars "422" ≠ chars " " := by
  refine ⟨rfl, by decide, by decide⟩

/-- C8 amended: the channel is the last field containing a non-whitespace
character (whitespace-only fields are skipped like empty ones): whenever the
parse yields a record, the split decomposes as `pre ++ channel :: suf` with
`channel` non-blank after stripping and every later field blank; the example
`"GLG,01705000,FM,,0,,,,0,1,,422"` yields channel `"422"`. -/
theorem c8_channel_is_last_nonblank_field :
    (∀ resp g, parse_glg_response resp = some g →
      ∃ pre suf, splitComma resp = pre ++ g.channel :: suf ∧
        pyStrip g.channel ≠ [] ∧ ∀ f ∈ suf, pyStrip f = []) ∧
    (parse_glg_response (chars "GLG,01705000,FM,,0,,,,0,1,,422")).map GLGParsed.channel =
      some (chars "422") := by
  constructor
  · intro resp g hg
    cases hsp : splitComma resp with
    | nil => exact absurd hsp (splitComma_ne_nil resp)
    | cons f0 tail =>
      cases tail with
      | nil =>
        by_cases htag : f0 = glgTag
        · subst htag
          rw [show parse_glg_response resp = none by
            simp [parse_glg_response, hsp]] at hg
          exact absurd hg (by simp)
        · rw [show parse_glg_response resp = none by
            simp [parse_glg_response, hsp, htag]] at hg
          exact absurd hg (by simp)
      | cons f1 rest2 =>
        by_cases htag : f0 = glgTag
        · subst htag
          rw [parse_glg_eq resp f1 rest2 hsp] at hg
          obtain rfl : _ = g := Option.some.inj hg
          set p : List Char → Bool := fun f => !(pyStrip f).isEmpty with hp
          have hmem : glgTag ∈ (glgTag :: f1 :: rest2).reverse :=
            List.mem_reverse.mpr (List.mem_cons_self _ _)
          have hsome : ((glgTag :: f1 :: rest2).reverse.find? p).isSome :=
            List.find?_isSome.mpr ⟨glgTag, hmem, by decide⟩
          obtain ⟨a, hfind⟩ := Option.isSome_iff_exists.mp hsome
          obtain ⟨pre, suf, hdec, hpa, hsuf⟩ := find_rev_decomp p _ a hfind
          refine ⟨pre, suf, ?_, ?_, ?_⟩
          · simp only [hfind, Option.getD_some]
            exact hdec
          · show pyStrip (((glgTag :: f1 :: rest2).reverse.find? p).getD []) ≠ []
            rw [hfind]
            intro hnil
            rw [Option.getD_some] at hnil
            rw [hp] at hpa
            simp [hnil] at hpa
          · intro f hf
            have := hsuf f hf
            rw [hp] at this
            simpa using this
        · rw [show parse_glg_response resp = none by
            simp [parse_glg_response, hsp, htag]] at hg
          exact absurd hg (by simp)
  · rfl

/-- C8 amended witness: the general half applied at the example response. -/
theorem c8_channel_is_last_nonblank_field_witness :
    ∃ pre suf, splitComma (chars "GLG,422, ") = pre ++ (chars "422") :: suf ∧
      pyStrip (chars "422") ≠ [] ∧ ∀ f ∈ suf, pyStrip f = [] := by
  have h := c8_channel_is_last_nonblank_field.1 (chars "GLG,422, ")
    ⟨glgTag, chars "422", some ((pyIntOfDigits (chars "422") : ℚ) / 10000),
      some (chars " "), chars "422"⟩ rfl
  exact h

/-- C10: when the first field is the `GLG` tag and every later field is
empty or whitespace-only, the last-non-blank-field search (which scans the
full split result, field 0 included) lands on the tag itself, so the parsed
channel is `"GLG"`; in particular for the reply `"GLG,,,"`. -/
theorem c10_blank_tail_channel_is_tag :
    (∀ resp f1 rest, splitComma resp = glgTag :: f1 :: rest →
      (∀ f ∈ f1 :: rest, pyStrip f = []) →
      ∃ g, parse_glg_response resp = some g ∧ g.channel = glgTag ∧
        g.frequency_mhz = none) ∧
    (parse_glg_response (chars "GLG,,,")).map GLGParsed.channel = some glgTag := by
  constructor
  · intro resp f1 rest hsp hblank
    refine ⟨_, parse_glg_eq resp f1 rest hsp, ?_, ?_⟩
    · show ((glgTag :: f1 :: rest).reverse.find?
        (fun f => !(pyStrip f).isEmpty)).getD [] = glgTag
      rw [List.reverse_cons, List.find?_append]
      have hnone : (f1 :: rest).reverse.find? (fun f => !(pyStrip f).isEmpty) = none := by
        rw [List.find?_eq_none]
        intro f hf
        have hb := hblank f (List.mem_reverse.mp hf)
        simp [hb]
      rw [hnone]
      rfl
    · show (if pyIsDigitStr f1 then some ((pyIntOfDigits f1 : ℚ) / 10000) else none) = none
      have hnd := pyStrip_nil_not_digit (hblank f1 (List.mem_cons_self f1 rest))
      simp [hnd]
  · rfl

/-- C10 witness: the general half applied at `"GLG,,,"`. -/
theorem c10_blank_tail_channel_is_tag_witness :
    ∃ g, parse_glg_response (chars "GLG,,,") = some g ∧ g.channel = glgTag ∧
      g.frequency_mhz = none :=
  c10_blank_tail_channel_is_tag.1 (chars "GLG,,,") [] [[], []] (by decide) (by decide)

/-- C7 counterexample: "decode never fails / replaces undecodable bytes" is
not true of every decode in the repository: the strict decode in
`uniden.py`'s `send_command` fails on byte 0xFF (and the whole exchange
raises `UnicodeDecodeError`), and the `errors='ignore'` decode of
`uniden_device.py`'s `read_response` drops the byte instead of inserting a
placeholder. -/
theorem c7_counterexample_strict_and_ignore :
    decodeStrict [255] = none ∧
    runOps [.sendOp (chars "MDL")] [.bytes [255]] =
      some ([.error .decodeErr],
        [.writeBytes ((chars "MDL\r").map Char.toNat), .readBytes ⟨64, 5000⟩], []) ∧
    decodeIgnore [65, 255, 66] = chars "AB" ∧
    replChar ∉ decodeIgnore [65, 255, 66] := by
  refine ⟨rfl, rfl, by decide, by decide⟩

/-- C7 amended: the `errors='replace'` decode of the channel-test and debug
scripts is total — every produced character is either plain ASCII or the
U+FFFD placeholder — and the stripped text has no whitespace at either end;
the strict decode of `uniden.py` fails exactly when some byte is `>= 0x80`;
the `errors='ignore'` decode of `uniden_device.py` only ever yields ASCII
characters (it drops undecodable bytes, never replacing them). -/
theorem c7_decode_policies :
    (∀ bs : List Nat, ∀ c ∈ decodeReplace bs, c.toNat < 128 ∨ c = replChar) ∧
    (∀ bs : List Nat, ∀ a : Char,
      ((pyStrip (decodeReplace bs)).head? = some a → pyIsSpace a = false) ∧
      ((pyStrip (decodeReplace bs)).getLast? = some a → pyIsSpace a = false)) ∧
    (∀ bs : List Nat, decodeStrict bs = none ↔ ∃ b ∈ bs, 128 ≤ b) ∧
    (∀ bs : List Nat, ∀ c ∈ decodeIgnore bs, c.toNat < 128) := by
  refine ⟨?_, ?_, ?_, ?_⟩
  · intro bs c hc
    rcases List.mem_map.mp hc with ⟨b, _, rfl⟩
    by_cases h128 : b < 128
    · left
      rw [if_pos h128, char_toNat_ofNat h128]
      exact h128
    · right
      rw [if_neg h128]
  · intro bs a
    exact ⟨pyStrip_head_not_space _ a, pyStrip_getLast_not_space _ a⟩
  · intro bs
    constructor
    · intro h
      by_contra hne
      push_neg at hne
      have hall : bs.all (fun b => b < 128) = true := by
        rw [List.all_eq_true]
        intro b hb
        simpa using hne b hb
      unfold decodeStrict at h
      rw [if_pos hall] at h
      exact absurd h (by simp)
    · rintro ⟨b, hb, hge⟩
      unfold decodeStrict
      rw [if_neg]
      intro hall
      rw [List.all_eq_true] at hall
      have := hall b hb
      simp at this
      omega
  · intro bs c hc
    rcases List.mem_map.mp hc with ⟨b, hbf, rfl⟩
    have hblt : b < 128 := by simpa using (List.mem_filter.mp hbf).2
    rw [char_toNat_ofNat hblt]
    exact hblt

/-- C7 amended witness: the strip/edge and strict-failure parts at concrete
buffers. -/
theorem c7_decode_policies_witness :
    pyIsSpace 'A' = false ∧ decodeStrict [200] = none :=
  ⟨(c7_decode_policies.2.1 [13, 65, 13] 'A').1 (by decide),
   (c7_decode_policies.2.2.1 [200]).mpr ⟨200, by decide, by decide⟩⟩

/-- C9: for an all-ASCII command, the outbound frame is the stripped command
text plus exactly one trailing CR byte, and strict-decoding the frame minus
that terminator and stripping (the inbound path of `uniden.py`) returns the
whitespace-trimmed original command text. -/
theorem c9_encode_decode_roundtrip (cmd : List Char) (h : ∀ c ∈ cmd, c.toNat < 128) :
    ∃ bs, encodeAscii (frameCommand cmd) = some bs ∧
      bs = (pyStrip cmd).map Char.toNat ++ [13] ∧
      bs.dropLast.getLast? ≠ some 13 ∧
      (decodeStrict bs.dropLast).map pyStrip = some (pyStrip cmd) := by
  have hascii : ∀ c ∈ pyStrip cmd, c.toNat < 128 := fun c hc => h c (mem_pyStrip hc)
  refine ⟨_, encode_frame_ok h, rfl, ?_, ?_⟩
  · rw [List.dropLast_concat, List.getLast?_map]
    intro hcon
    rcases hx : (pyStrip cmd).getLast? with _ | c
    · rw [hx] at hcon
      simp at hcon
    · rw [hx] at hcon
      simp at hcon
      have hsp := pyStrip_getLast_not_space cmd c hx
      have hcr : c = '\r' := by
        have h2 := Char.ofNat_toNat c
        rw [hcon] at h2
        exact h2.symm
      rw [hcr] at hsp
      exact absurd hsp (by decide)
  · rw [List.dropLast_concat, decodeStrict_map_toNat hascii]
    simp [pyStrip_idem]

/-- C9 witness: the round trip at the command `" MDL "`. -/
theorem c9_encode_decode_roundtrip_witness :
    (∀ c ∈ chars " MDL ", c.toNat < 128) ∧
    (∃ bs, encodeAscii (frameCommand (chars " MDL ")) = some bs ∧
      bs = (pyStrip (chars " MDL ")).map Char.toNat ++ [13] ∧
      bs.dropLast.getLast? ≠ some 13 ∧
      (decodeStrict bs.dropLast).map pyStrip = some (pyStrip (chars " MDL "))) :=
  ⟨by decide, c9_encode_decode_roundtrip (chars " MDL ") (by decide)⟩

/-- C1: in `uniden_channel_test.py`'s `send_command`, when the stripped
decoded primary text ends in `,` exactly one continuation read is issued
(256 bytes, 1000 ms) and its stripped decoded text is appended — with a
USBError (e.g. timeout) on that read yielding the accumulated text and no
failure — and when the text does not end in `,`, only the primary read
(256 bytes, 5000 ms) is issued. -/
theorem c1_continuation_heuristic :
    (∀ cmd bs o2 rest, (∀ c ∈ cmd, c.toNat < 128) →
      (pyStrip (decodeReplace bs)).getLast? = some ',' →
      send_command_ct cmd (.bytes bs :: o2 :: rest) = some ⟨
        .ok (pyStrip (decodeReplace bs) ++
          (match o2 with
           | .bytes bs2 => pyStrip (decodeReplace bs2)
           | .usbErr _ => [])),
        [⟨256, 5000⟩, ⟨256, 1000⟩], rest⟩) ∧
    (∀ cmd bs rest, (∀ c ∈ cmd, c.toNat < 128) →
      (pyStrip (decodeReplace bs)).getLast? ≠ some ',' →
      send_command_ct cmd (.bytes bs :: rest) =
        some ⟨.ok (pyStrip (decodeReplace bs)), [⟨256, 5000⟩], rest⟩) := by
  constructor
  · intro cmd bs o2 rest hascii hcomma
    unfold send_command_ct
    rw [encode_frame_ok hascii]
    cases o2 with
    | bytes bs2 => simp [hcomma]
    | usbErr t => simp [hcomma]
  · intro cmd bs rest hascii hncomma
    unfold send_command_ct
    rw [encode_frame_ok hascii]
    simp [hncomma]

/-- C1 witness: a comma-terminated primary read followed by data, a
comma-terminated primary read followed by a timeout, and a complete primary
read. -/
theorem c1_continuation_heuristic_witness :
    send_command_ct (chars "GLG")
        [.bytes ((chars "GLG,01705000,").map Char.toNat),
         .bytes ((chars "422\r").map Char.toNat)] =
      some ⟨.ok (pyStrip (decodeReplace ((chars "GLG,01705000,").map Char.toNat)) ++
          pyStrip (decodeReplace ((chars "422\r").map Char.toNat))),
        [⟨256, 5000⟩, ⟨256, 1000⟩], []⟩ ∧
    send_command_ct (chars "GLG")
        [.bytes ((chars "GLG,01705000,").map Char.toNat), .usbErr true] =
      some ⟨.ok (pyStrip (decodeReplace ((chars "GLG,01705000,").map Char.toNat)) ++ []),
        [⟨256, 5000⟩, ⟨256, 1000⟩], []⟩ ∧
    send_command_ct (chars "MDL") [.bytes ((chars "UBC125XLT\r").map Char.toNat)] =
      some ⟨.ok (pyStrip (decodeReplace ((chars "UBC125XLT\r").map Char.toNat))),
        [⟨256, 5000⟩], []⟩ :=
  ⟨c1_continuation_heuristic.1 (chars "GLG") ((chars "GLG,01705000,").map Char.toNat)
      (.bytes ((chars "422\r").map Char.toNat)) [] (by decide) (by decide),
   c1_continuation_heuristic.1 (chars "GLG") ((chars "GLG,01705000,").map Char.toNat)
      (.usbErr true) [] (by decide) (by decide),
   c1_continuation_heuristic.2 (chars "MDL") ((chars "UBC125XLT\r").map Char.toNat)
      [] (by decide) (by decide)⟩

/-- C3 counterexample: a drain whose very first read fails with a
non-timeout USBError terminates normally (`Except.ok`) in both
`clear_buffer` variants — the failure is logged and swallowed, not escalated
to the caller as the claim states. -/
theorem c3_counterexample_nontimeout_swallowed :
    clear_buffer_ct [.usbErr false] = some (.ok ⟨[], false, [⟨256, 500⟩], []⟩) ∧
    clear_buffer_dbg [.usbErr false] = some (.ok ⟨[], false, [⟨128, 500⟩], []⟩) :=
  ⟨rfl, rfl⟩

/-- C3 amended: each drain reads repeatedly with the short 500 ms timeout
(256-byte reads in the channel-test variant, 128-byte in the debug variant)
discarding everything read, and the first `USBError` of any kind — timeout
or not — terminates the drain normally; no transport failure is ever
escalated (every terminated drain is `Except.ok`). -/
theorem c3_drain_discards_until_any_usberr :
    (∀ trace r, clear_buffer_ct trace = some r → ∃ d, r = .ok d ∧
      d.reads = List.replicate (d.discarded.length + 1) ⟨256, 500⟩ ∧
      trace = d.discarded.map Outcome.bytes ++ .usbErr d.termTimeout :: d.rest) ∧
    (∀ trace r, clear_buffer_dbg trace = some r → ∃ d, r = .ok d ∧
      d.reads = List.replicate (d.discarded.length + 1) ⟨128, 500⟩ ∧
      trace = d.discarded.map Outcome.bytes ++ .usbErr d.termTimeout :: d.rest) := by
  constructor
  · intro trace
    induction trace with
    | nil =>
      intro r h
      simp [clear_buffer_ct] at h
    | cons o t ih =>
      intro r h
      cases o with
      | bytes bs =>
        simp only [clear_buffer_ct] at h
        cases ht : clear_buffer_ct t with
        | none =>
          rw [ht] at h
          simp at h
        | some r2 =>
          rw [ht] at h
          simp only [Option.map_some'] at h
          obtain ⟨d2, hr2, hreads, htr⟩ := ih r2 ht
          subst hr2
          refine ⟨⟨bs :: d2.discarded, d2.termTimeout, ⟨256, 500⟩ :: d2.reads, d2.rest⟩,
            ?_, ?_, ?_⟩
          · rw [← Option.some_inj.mp h]
            rfl
          · simp [hreads, List.replicate_succ]
          · simp [htr]
      | usbErr tflag =>
        simp only [clear_buffer_ct, Option.some_inj] at h
        exact ⟨⟨[], tflag, [⟨256, 500⟩], t⟩, h.symm, rfl, rfl⟩
  · intro trace
    induction trace with
    | nil =>
      intro r h
      simp [clear_buffer_dbg] at h
    | cons o t ih =>
      intro r h
      cases o with
      | bytes bs =>
        simp only [clear_buffer_dbg] at h
        cases ht : clear_buffer_dbg t with
        | none =>
          rw [ht] at h
          simp at h
        | some r2 =>
          rw [ht] at h
          simp only [Option.map_some'] at h
          obtain ⟨d2, hr2, hreads, htr⟩ := ih r2 ht
          subst hr2
          refine ⟨⟨bs :: d2.discarded, d2.termTimeout, ⟨128, 500⟩ :: d2.reads, d2.rest⟩,
            ?_, ?_, ?_⟩
          · rw [← Option.some_inj.mp h]
            rfl
          · simp [hreads, List.replicate_succ]
          · simp [htr]
      | usbErr tflag =>
        rw [show clear_buffer_dbg (Outcome.usbErr tflag :: t)
            = some (.ok ⟨[], tflag, [⟨128, 500⟩], t⟩) from by cases tflag <;> rfl] at h
        exact ⟨⟨[], tflag, [⟨128, 500⟩], t⟩, (Option.some_inj.mp h).symm, rfl, rfl⟩

/-- C3 amended witness: a drain that discards one payload and stops on a
timeout. -/
theorem c3_drain_discards_until_any_usberr_witness :
    ∃ d, (Except.ok ⟨[[65]], true, [⟨256, 500⟩, ⟨256, 500⟩], []⟩ : Except Bool DrainOut)
        = .ok d ∧
      d.reads = List.replicate (d.discarded.length + 1) ⟨256, 500⟩ ∧
      [Outcome.bytes [65], Outcome.usbErr true] =
        d.discarded.map Outcome.bytes ++ .usbErr d.termTimeout :: d.rest :=
  c3_drain_discards_until_any_usberr.1 [.bytes [65], .usbErr true]
    (.ok ⟨[[65]], true, [⟨256, 500⟩, ⟨256, 500⟩], []⟩) rfl

/-- C2 counterexample: `uniden.py` tracks no session state and has no
`InvalidState` error: calling `send_command("MDL")` on a fresh session with
no prior `initialize()` performs the write/read exchange and returns the
response text successfully whenever the transport responds — it does not
fail, let alone with `InvalidState`. -/
theorem c2_counterexample_send_without_init :
    runOps [.sendOp (chars "MDL")] [.bytes ((chars "UBC125XLT\r").map Char.toNat)] =
      some ([.ok (some (chars "UBC125XLT"))],
        [.writeBytes ((chars "MDL\r").map Char.toNat), .readBytes ⟨64, 5000⟩], []) := rfl

/-- Unfolding step for `runOps` when the first operation succeeds. -/
theorem runOps_cons_ok (op : SessionOp) (ops : List SessionOp) (trace : List Outcome)
    (v : Option (List Char)) (calls1 : List TranspCall) (rest1 : List Outcome)
    (h : runOp op trace = some (.ok v, calls1, rest1)) :
    runOps (op :: ops) trace =
      match runOps ops rest1 with
      | none => none
      | some (rs, cs, rem) => some (.ok v :: rs, calls1 ++ cs, rem) := by
  simp [runOps, h]

/-- C2 amended: the session is stateless: `send_command`'s result and
transport calls are the same whether or not an `initialize()` or `close()`
precedes it (only the extra claim/release/dispose calls of that operation
are prepended), and a second `close()` is not a no-op — it re-issues the
`release_interface` and `dispose_resources` calls — though at the code
level neither close fails.  No `InvalidState` failure exists anywhere. -/
theorem c2_session_is_stateless :
    (∀ cmd trace res calls rest, runOps [.sendOp cmd] trace = some (res, calls, rest) →
      runOps [.initOp, .sendOp cmd] trace =
        some (.ok none :: res, .claimInterface :: calls, rest) ∧
      runOps [.closeOp, .sendOp cmd] trace =
        some (.ok none :: res, .releaseInterface :: .dispose :: calls, rest)) ∧
    (∀ trace, runOps [.closeOp, .closeOp] trace =
      some ([.ok none, .ok none],
        [.releaseInterface, .dispose, .releaseInterface, .dispose], trace)) := by
  constructor
  · intro cmd trace res calls rest h
    have hinit : runOp .initOp trace = some (.ok none, [.claimInterface], trace) := rfl
    have hclose : runOp .closeOp trace =
        some (.ok none, [.releaseInterface, .dispose], trace) := rfl
    constructor
    · rw [runOps_cons_ok _ _ _ _ _ _ hinit, h]
      rfl
    · rw [runOps_cons_ok _ _ _ _ _ _ hclose, h]
      rfl
  · intro trace
    rfl

/-- C2 amended witness: a send preceded by initialize, and a double close,
on concrete traces. -/
theorem c2_session_is_stateless_witness :
    (runOps [.initOp, .sendOp (chars "MDL")]
        [.bytes ((chars "UBC125XLT\r").map Char.toNat)] =
      some ([.ok none, .ok (some (chars "UBC125XLT"))],
        [.claimInterface, .writeBytes ((chars "MDL\r").map Char.toNat),
         .readBytes ⟨64, 5000⟩], []) ∧
    runOps [.closeOp, .sendOp (chars "MDL")]
        [.bytes ((chars "UBC125XLT\r").map Char.toNat)] =
      some ([.ok none, .ok (some (chars "UBC125XLT"))],
        [.releaseInterface, .dispose, .writeBytes ((chars "MDL\r").map Char.toNat),
         .readBytes ⟨64, 5000⟩], [])) ∧
    runOps [.closeOp, .closeOp] [] =
      some ([.ok none, .ok none],
        [.releaseInterface, .dispose, .releaseInterface, .dispose], []) :=
  ⟨c2_session_is_stateless.1 (chars "MDL")
      [.bytes ((chars "UBC125XLT\r").map Char.toNat)]
      [.ok (some (chars "UBC125XLT"))]
      [.writeBytes ((chars "MDL\r").map Char.toNat), .readBytes ⟨64, 5000⟩]
      [] rfl,
   c2_session_is_stateless.2 []⟩

end Uniden
